import Mathlib

/-!
Shallow embedding of `src/download-helper.js` (class `DownloadHelper`).

JavaScript strings are modelled as Lean `String`s, JS numbers as `ℚ`
(all numbers appearing in this code are exact decimals), thrown JS
errors as the `error` side of `Except JSError`, and the polymorphic
`data` argument of `downloadFile` as an inductive type with one
constructor per runtime-type branch of the source.  The ambient browser
collaborators are modelled by their observable behaviour: a canvas is a
function `toDataURL : mime → optional quality → Except JSError String`,
`URL.createObjectURL` deterministically prefixes `"blob:"`, and the
anchor-click download is recorded as a `TriggeredDownload` value
(the `href` and `download` attributes the code assigns).
-/

deriving instance DecidableEq for Except

/-- A thrown JS error value: `name` and `message` fields. -/
structure JSError where
  name : String
  message : String
deriving DecidableEq, Repr

/-- JS `String.prototype.toLowerCase` restricted to what the source needs:
ASCII letters `A`–`Z` are shifted to lower case, all other code points kept. -/
def jsCharLower (c : Char) : Char :=
  if 65 ≤ c.toNat ∧ c.toNat ≤ 90 then Char.ofNat (c.toNat + 32) else c

/-- JS `s.toLowerCase()`. -/
def jsToLower (s : String) : String :=
  String.mk (s.toList.map jsCharLower)

/-- `pat` is a prefix of `s` (character lists). -/
def listHasPrefix : List Char → List Char → Bool
  | _, [] => true
  | [], _ :: _ => false
  | c :: cs, p :: ps => c == p && listHasPrefix cs ps

/-- `pat` occurs contiguously in `s` (character lists). -/
def listIncludes : List Char → List Char → Bool
  | [], pat => pat.isEmpty
  | s@(_ :: rest), pat => listHasPrefix s pat || listIncludes rest pat

/-- JS `s.includes(pat)`. -/
def jsIncludes (s pat : String) : Bool :=
  listIncludes s.toList pat.toList

/-- JS `s.startsWith(pat)`. -/
def jsStartsWith (s pat : String) : Bool :=
  listHasPrefix s.toList pat.toList

/-- The `extensions` table of `getFileExtension` (lines 110–120). -/
def extensionsTable : List (String × String) :=
  [("jpeg", "jpg"), ("jpg", "jpg"), ("png", "png"), ("webp", "webp"),
   ("gif", "gif"), ("pdf", "pdf"), ("txt", "txt"), ("text", "txt"),
   ("json", "json")]

/-- The `mimeTypes` table of `getMimeType` (lines 129–139). -/
def mimeTypesTable : List (String × String) :=
  [("jpeg", "image/jpeg"), ("jpg", "image/jpeg"), ("png", "image/png"),
   ("webp", "image/webp"), ("gif", "image/gif"), ("pdf", "application/pdf"),
   ("txt", "text/plain"), ("text", "text/plain"), ("json", "application/json")]

/-- The keys shared by both tables. -/
def recognizedTokens : List String :=
  ["jpeg", "jpg", "png", "webp", "gif", "pdf", "txt", "text", "json"]

/-- A value produced by JS property access on the lookup tables: either an
own data property (every own value in this file is a string) or a truthy
member inherited from `Object.prototype`, identified by its property name. -/
inductive JSValue where
  | str (s : String)
  | inheritedObject (key : String)
deriving DecidableEq, Repr

/-- The property names every object literal inherits from
`Object.prototype`; accessing any of them on the tables yields a truthy
non-string (a function, or `Object.prototype` itself for `__proto__`). -/
def objectProtoKeys : List String :=
  ["constructor", "__proto__", "hasOwnProperty", "isPrototypeOf",
   "propertyIsEnumerable", "toLocaleString", "toString", "valueOf",
   "__defineGetter__", "__defineSetter__", "__lookupGetter__",
   "__lookupSetter__"]

/-- JS property access `table[key]` on an object literal: an own property
first, else the prototype chain (`Object.prototype`), else `undefined`. -/
def jsObjectGet (table : List (String × String)) (key : String) :
    Option JSValue :=
  match table.lookup key with
  | some v => some (.str v)
  | none =>
      if key ∈ objectProtoKeys then some (.inheritedObject key) else none

/-- Template-literal/DOMString coercion of such a value (V8's renderings of
the inherited `Object.prototype` members). -/
def jsValueToString : JSValue → String
  | .str s => s
  | .inheritedObject "__proto__" => "[object Object]"
  | .inheritedObject "constructor" => "function Object() { [native code] }"
  | .inheritedObject k => "function " ++ k ++ "() { [native code] }"

/-- `getFileExtension` (lines 109–123): `extensions[format.toLowerCase()] ||
'file'`.  The property access walks the prototype chain, so a key naming an
`Object.prototype` member yields that inherited truthy value and the
`|| 'file'` default does not fire; every own value is a truthy string, so
the default fires exactly when the access yields `undefined`. -/
def getFileExtension (format : String) : JSValue :=
  (jsObjectGet extensionsTable (jsToLower format)).getD (.str "file")

/-- `getMimeType` (lines 128–142): `mimeTypes[format.toLowerCase()] ||
'application/octet-stream'`, with the same prototype-chain behaviour. -/
def getMimeType (format : String) : JSValue :=
  (jsObjectGet mimeTypesTable (jsToLower format)).getD
    (.str "application/octet-stream")

/-- The regex `/\.[^/.]+$/` of `cleanFilename`, on a reversed character list:
if the characters before the last `.` (reading from the end) are non-empty and
contain neither `/` nor `.`, the match is that suffix together with the dot. -/
def stripExtension (cs : List Char) : List Char :=
  let r := cs.reverse
  let ext := r.takeWhile (fun c => ¬ c = '.')
  match r.dropWhile (fun c => ¬ c = '.') with
  | '.' :: tail =>
      if ¬ ext = [] ∧ ext.all (fun c => ¬ c = '/') then tail.reverse else cs
  | _ => cs

/-- One character of the regex replace `[^a-zA-Z0-9-_] → "_"`. -/
def sanitizeChar (c : Char) : Char :=
  if ('a' ≤ c ∧ c ≤ 'z') ∨ ('A' ≤ c ∧ c ≤ 'Z') ∨ ('0' ≤ c ∧ c ≤ '9')
      ∨ c = '-' ∨ c = '_' then c else '_'

/-- `cleanFilename` (lines 147–152): strip a trailing extension, replace
characters outside `[a-zA-Z0-9-_]` by `_`, truncate to 50 characters. -/
def cleanFilename (filename : String) : String :=
  String.mk (((stripExtension filename.toList).map sanitizeChar).take 50)

/-- The four canned hints of `getErrorSuggestion`. -/
def securityHint : String :=
  "Please try a different image or check browser security settings."

def formatHint : String :=
  "This format may not be supported by your browser. Try a different format."

def sizeHint : String :=
  "The file might be too large. Try a smaller image or lower quality."

def genericHint : String :=
  "Please try again or use a different file."

/-- `getErrorSuggestion` (lines 157–169): lower-case the message and match
substrings in fixed priority order. -/
def getErrorSuggestion (error : JSError) : String :=
  let errorMsg := jsToLower error.message
  if jsIncludes errorMsg "security" || jsIncludes errorMsg "cross-origin" then
    securityHint
  else if jsIncludes errorMsg "supported" || jsIncludes errorMsg "format" then
    formatHint
  else if jsIncludes errorMsg "size" || jsIncludes errorMsg "large" then
    sizeHint
  else
    genericHint

/-- A drawable surface, modelled by the observable behaviour of its
`toDataURL` method: given a MIME type and an optional quality argument it
either produces an encoded data-URL string or throws. -/
structure Canvas where
  toDataURL : String → Option ℚ → Except JSError String

/-- `canvasToDataURL` (lines 86–104): PNG is encoded without a quality
argument, other MIME types with it; on a thrown error whose `name` is
`"SecurityError"` or whose message includes `"supported"`, retry once
forcing JPEG at the same quality; any other error, and any error of the
retry itself, propagates. -/
def canvasToDataURL (canvas : Canvas) (mimeType : String) (quality : ℚ) :
    Except JSError String :=
  match (if mimeType == "image/png" then canvas.toDataURL mimeType none
         else canvas.toDataURL mimeType (some quality)) with
  | .ok s => .ok s
  | .error e =>
      if e.name == "SecurityError" || jsIncludes e.message "supported" then
        canvas.toDataURL "image/jpeg" (some quality)
      else .error e

/-- A binary blob, identified by its content. -/
structure Blob where
  content : String
deriving DecidableEq, Repr

/-- The polymorphic `data` argument of `downloadFile`: one constructor per
runtime-type branch of lines 41–54 (`null` stands for the absent/`null`
argument rejected by the falsiness check on line 26). -/
inductive JSData where
  | null
  | str (s : String)
  | canvas (c : Canvas)
  | blob (b : Blob)

/-- JS falsiness of the `data` argument (`!data`, line 26): `null` and the
empty string are falsy; object values (canvas, blob) are always truthy. -/
def JSData.isFalsy : JSData → Bool
  | .null => true
  | .str s => s == ""
  | .canvas _ => false
  | .blob _ => false

/-- The recognized `options` object of `downloadFile`. -/
structure DownloadOptions where
  quality : Option ℚ

/-- JS `options.quality || 0.8` (line 46): an absent quality, and the falsy
number `0`, both fall back to the default `0.8` (the rational `4/5`). -/
def jsOrDefaultQuality : Option ℚ → ℚ
  | some v => if v = 0 then mkRat 4 5 else v
  | none => mkRat 4 5

/-- The observable effect of the anchor click on lines 57–64: the `href`
(the resolved download data) and the `download` attribute (the name). -/
structure TriggeredDownload where
  href : String
  name : String
deriving DecidableEq, Repr

/-- The `try` block of `downloadFile` (lines 24–71): validate inputs,
resolve extension and MIME type, sanitize the filename, normalize the data
(pass a data-URL string through, encode a canvas, wrap a blob or raw string
into an object URL), and trigger the download.  `URL.createObjectURL` is
modelled as prefixing `"blob:"` to the blob's content.  The resolved
extension and MIME type are `JSValue`s; the template literal building
`downloadName` and the DOMString conversion at the `toDataURL` call coerce
them through `jsValueToString`. -/
def downloadFileCore (data : JSData) (filename format : String)
    (options : DownloadOptions) : Except JSError TriggeredDownload := do
  if data.isFalsy || filename == "" || format == "" then
    throw ⟨"Error", "Missing required parameters for download"⟩
  let fileExtension := getFileExtension format
  let mimeType := getMimeType format
  let cleanName := cleanFilename filename
  let downloadName := cleanName ++ "-converted." ++ jsValueToString fileExtension
  let downloadData ←
    match data with
    | .str s => if jsStartsWith s "data:" then pure s else pure ("blob:" ++ s)
    | .canvas c =>
        canvasToDataURL c (jsValueToString mimeType)
          (jsOrDefaultQuality options.quality)
    | .blob b => pure ("blob:" ++ b.content)
    | .null => pure ""
  pure ⟨downloadData, downloadName⟩

/-- The result value of `downloadFile`. -/
inductive DownloadResult where
  | success (filename : String)
  | failure (error : String) (suggestion : String)
deriving DecidableEq, Repr

/-- `downloadFile` (lines 23–81): run the `try` block; the `catch` block
converts any thrown error into `{success:false, error, suggestion}`. -/
def downloadFile (data : JSData) (filename format : String)
    (options : DownloadOptions) : DownloadResult :=
  match downloadFileCore data filename format options with
  | .ok t => .success t.name
  | .error e => .failure e.message (getErrorSuggestion e)

/-- JS `s.split(sep)` for a single-character separator, on character lists:
splits into the (possibly empty) groups between occurrences of `sep`. -/
def splitOnChar (sep : Char) : List Char → List (List Char)
  | [] => [[]]
  | c :: cs =>
      if c = sep then [] :: splitOnChar sep cs
      else
        match splitOnChar sep cs with
        | [] => [[c]]
        | g :: gs => (c :: g) :: gs

/-- JS `name.split('.').pop()` (line 197): the part after the last dot, the
whole string when there is no dot (`split` never yields an empty array, so
`pop` always returns a string). -/
def lastDotSegment (name : String) : String :=
  String.mk ((splitOnChar '.' name.toList).getLastD [])

/-- A file-like JS object: each field may be absent (`undefined`). -/
structure JSFile where
  size : Option ℚ
  type : Option String
  name : Option String

/-- The size-limit error string (line 183), interpolating `maxSizeMB`. -/
def sizeLimitError (maxSizeMB : ℚ) : String :=
  "File size must be less than " ++ toString maxSizeMB ++ "MB"

/-- The type error string (line 187). -/
def typeError : String := "Unable to determine file type"

/-- The fileInfo summary built on lines 193–198.  `extension` holds the raw
result of `getFileExtension`, which for an `Object.prototype` property name
is the inherited object rather than a string. -/
structure FileInfo where
  name : String
  size : Option ℚ
  type : Option String
  extension : JSValue
deriving DecidableEq, Repr

/-- The result object of `validateFile`. -/
structure ValidationResult where
  isValid : Bool
  errors : List String
  fileInfo : Option FileInfo
deriving DecidableEq, Repr

/-- `validateFile` (lines 174–200).  An absent file returns immediately with
the single error.  Otherwise errors accumulate: `file.size > maxSizeMB*1024*1024`
(false when `size` is absent, as the JS comparison with `undefined` is) adds
the size error, a missing or empty `type` adds the type error.  Building
`fileInfo` reads `file.name.split('.')`: when `name` is absent this throws a
`TypeError`, modelled as the `error` side. -/
def validateFile (file : Option JSFile) (maxSizeMB : ℚ) :
    Except JSError ValidationResult :=
  match file with
  | none => .ok ⟨false, ["No file selected"], none⟩
  | some f =>
      let sizeErrors : List String :=
        match f.size with
        | some s => if s > maxSizeMB * 1024 * 1024 then [sizeLimitError maxSizeMB] else []
        | none => []
      let typeErrors : List String :=
        match f.type with
        | some t => if t == "" then [typeError] else []
        | none => [typeError]
      let errors := sizeErrors ++ typeErrors
      match f.name with
      | none =>
          .error ⟨"TypeError",
            "Cannot read properties of undefined (reading 'split')"⟩
      | some n =>
          .ok ⟨errors.isEmpty, errors,
            some ⟨n, f.size, f.type, getFileExtension (lastDotSegment n)⟩⟩

/-- A test surface whose encoder records the MIME type and the received
quality argument in its output (`-1` marks an absent quality argument). -/
def probeCanvas : Canvas :=
  ⟨fun mimeType q => .ok (mimeType ++ "#" ++ toString (q.getD (-1)))⟩

/-- A test surface whose encoder always throws a `SecurityError`
(a cross-origin-tainted canvas). -/
def secCanvas : Canvas :=
  ⟨fun _ _ => .error ⟨"SecurityError", "tainted canvas"⟩⟩

/-- A test surface whose encoder rejects PNG with an unsupported-format
message and encodes anything else, recording the received quality. -/
def pngFailCanvas : Canvas :=
  ⟨fun mimeType q =>
    if mimeType == "image/png" then
      .error ⟨"EncodingError", "image/png is not supported"⟩
    else .ok ("jpeg@" ++ toString (q.getD 0))⟩

/-- Helper: a lookup whose key differs from every key of the table misses. -/
theorem lookup_eq_none_of_ne_keys (a : String) (l : List (String × String))
    (h : ∀ p ∈ l, ¬ a = p.1) : l.lookup a = none := by
  induction l with
  | nil => rfl
  | cons p t ih =>
      obtain ⟨k, v⟩ := p
      have hk : ¬ a = k := h (k, v) (List.mem_cons_self _ _)
      have hb : (a == k) = false := by simp [hk]
      simp only [List.lookup, hb]
      exact ih fun q hq => h q (List.mem_cons_of_mem _ hq)

/-- Helper: a token outside the shared key set misses the extensions table. -/
theorem extensionsTable_lookup_unknown (s : String)
    (h : jsToLower s ∉ recognizedTokens) :
    extensionsTable.lookup (jsToLower s) = none := by
  have hmem : ∀ k, k ∈ recognizedTokens → ¬ jsToLower s = k :=
    fun k hk hc => h (hc ▸ hk)
  apply lookup_eq_none_of_ne_keys
  intro p hp
  simp only [extensionsTable, List.mem_cons, List.not_mem_nil, or_false] at hp
  rcases hp with rfl | rfl | rfl | rfl | rfl | rfl | rfl | rfl | rfl <;>
    exact hmem _ (by decide)

/-- Helper: a token outside the shared key set misses the MIME table. -/
theorem mimeTypesTable_lookup_unknown (s : String)
    (h : jsToLower s ∉ recognizedTokens) :
    mimeTypesTable.lookup (jsToLower s) = none := by
  have hmem : ∀ k, k ∈ recognizedTokens → ¬ jsToLower s = k :=
    fun k hk hc => h (hc ▸ hk)
  apply lookup_eq_none_of_ne_keys
  intro p hp
  simp only [mimeTypesTable, List.mem_cons, List.not_mem_nil, or_false] at hp
  rcases hp with rfl | rfl | rfl | rfl | rfl | rfl | rfl | rfl | rfl <;>
    exact hmem _ (by decide)

/-- Helper: tokens outside both the table and `Object.prototype` take the
`"file"` default of `getFileExtension`. -/
theorem getFileExtension_unknown (s : String)
    (h : jsToLower s ∉ recognizedTokens)
    (hp : jsToLower s ∉ objectProtoKeys) :
    getFileExtension s = .str "file" := by
  unfold getFileExtension jsObjectGet
  rw [extensionsTable_lookup_unknown s h]
  simp [hp]

/-- Helper: tokens outside both the table and `Object.prototype` take the
octet-stream default of `getMimeType`. -/
theorem getMimeType_unknown (s : String)
    (h : jsToLower s ∉ recognizedTokens)
    (hp : jsToLower s ∉ objectProtoKeys) :
    getMimeType s = .str "application/octet-stream" := by
  unfold getMimeType jsObjectGet
  rw [mimeTypesTable_lookup_unknown s h]
  simp [hp]

/-- Helper: the table keys and the `Object.prototype` names are disjoint. -/
theorem protoKeys_not_recognized :
    ∀ k ∈ objectProtoKeys, k ∉ recognizedTokens := by decide

/-- Helper: a token lower-casing to an `Object.prototype` name makes
`getFileExtension` return the inherited object. -/
theorem getFileExtension_inherited (s : String)
    (hp : jsToLower s ∈ objectProtoKeys) :
    getFileExtension s = .inheritedObject (jsToLower s) := by
  unfold getFileExtension jsObjectGet
  rw [extensionsTable_lookup_unknown s (protoKeys_not_recognized _ hp)]
  simp [hp]

/-- Helper: the same inherited-object behaviour for `getMimeType`. -/
theorem getMimeType_inherited (s : String)
    (hp : jsToLower s ∈ objectProtoKeys) :
    getMimeType s = .inheritedObject (jsToLower s) := by
  unfold getMimeType jsObjectGet
  rw [mimeTypesTable_lookup_unknown s (protoKeys_not_recognized _ hp)]
  simp [hp]


/-- C1: `downloadFile` never lets a failure escape: for every input it
returns either `success` with the download name, or `failure` carrying the
thrown error's message together with the suggestion `getErrorSuggestion`
produces for that same error; in particular the missing-parameter rejection
surfaces as a `failure` with the generic hint. -/
theorem downloadFile_never_throws :
    (∀ (data : JSData) (filename format : String) (options : DownloadOptions),
      (∃ n, downloadFile data filename format options = .success n) ∨
      (∃ e : JSError,
        downloadFile data filename format options =
          .failure e.message (getErrorSuggestion e))) ∧
    downloadFile .null "a" "png" ⟨none⟩ =
      .failure "Missing required parameters for download" genericHint := by
  constructor
  · intro data filename format options
    unfold downloadFile
    cases downloadFileCore data filename format options with
    | ok t => exact Or.inl ⟨t.name, rfl⟩
    | error e => exact Or.inr ⟨e, rfl⟩
  · decide

/-- C2 counterexample: the claim fails at the in-range quality `0`.  With a
probe surface that records the quality it receives, supplying
`options.quality = 0` makes `downloadFile` encode at the default `0.8`
(`4/5`), not at `0`: `0 || 0.8` is `0.8` in JS. -/
theorem downloadFile_quality_zero_counterexample :
    downloadFileCore (.canvas probeCanvas) "a" "jpeg" ⟨some 0⟩ =
      .ok ⟨"image/jpeg#4/5", "a-converted.jpg"⟩ ∧
    canvasToDataURL probeCanvas (jsValueToString (getMimeType "jpeg")) 0 =
      .ok "image/jpeg#0" := by
  decide

/-- C2 amended: for every canvas and every supplied quality other than the
falsy `0`, `downloadFile` encodes the surface at that quality; the default
`0.8` is used when the quality option is omitted or equal to `0`. -/
theorem downloadFile_quality_passthrough (c : Canvas) (fn fmt : String)
    (q : ℚ) (hfn : ¬ fn = "") (hfmt : ¬ fmt = "") (hq : ¬ q = 0) :
    downloadFileCore (.canvas c) fn fmt ⟨some q⟩ =
      (canvasToDataURL c (jsValueToString (getMimeType fmt)) q).map
        (fun d =>
          ⟨d, cleanFilename fn ++ "-converted." ++
            jsValueToString (getFileExtension fmt)⟩) ∧
    downloadFileCore (.canvas c) fn fmt ⟨none⟩ =
      (canvasToDataURL c (jsValueToString (getMimeType fmt)) (mkRat 4 5)).map
        (fun d =>
          ⟨d, cleanFilename fn ++ "-converted." ++
            jsValueToString (getFileExtension fmt)⟩) := by
  have hfn' : (fn == "") = false := by simp [hfn]
  have hfmt' : (fmt == "") = false := by simp [hfmt]
  constructor <;>
  · unfold downloadFileCore
    simp only [JSData.isFalsy, hfn', hfmt', Bool.or_false, Bool.or_self,
      Bool.false_eq_true, if_false, jsOrDefaultQuality, hq, ite_false]
    cases canvasToDataURL c (jsValueToString (getMimeType fmt)) q <;>
      cases canvasToDataURL c (jsValueToString (getMimeType fmt)) (mkRat 4 5) <;>
      simp [Except.map, Except.bind, Bind.bind, pure, Except.pure]

/-- C2 witness: instantiating the pass-through at the probe surface with the
supplied quality `1`. -/
theorem downloadFile_quality_passthrough_witness :
    downloadFileCore (.canvas probeCanvas) "b" "jpeg" ⟨some 1⟩ =
      (canvasToDataURL probeCanvas (jsValueToString (getMimeType "jpeg")) 1).map
        (fun d =>
          ⟨d, cleanFilename "b" ++ "-converted." ++
            jsValueToString (getFileExtension "jpeg")⟩) :=
  (downloadFile_quality_passthrough probeCanvas "b" "jpeg" 1
    (by decide) (by decide) (by decide)).1

/-- C3 counterexample: `cleanFilename "My File v2.2.jpg"` is not the spec's
`"My_File_v2"` — only the final `.jpg` extension is stripped, so the inner
`.2` survives as `_2`. -/
theorem cleanFilename_example_counterexample :
    cleanFilename "My File v2.2.jpg" ≠ "My_File_v2" := by decide

/-- C3 amended: `cleanFilename "My File v2.2.jpg"` returns `"My_File_v2_2"`:
the trailing extension is stripped and every character outside letters,
digits, `-` and `_` is replaced by `_`. -/
theorem cleanFilename_example :
    cleanFilename "My File v2.2.jpg" = "My_File_v2_2" := by decide

/-- C4 counterexample: the claim fails for a present file object lacking a
`name` field — line 197 reads `file.name.split('.')`, which throws a
`TypeError` instead of reporting through the return structure. -/
theorem validateFile_throws_on_missing_name :
    validateFile (some ⟨some 100, some "image/png", none⟩) 5 =
      .error ⟨"TypeError",
        "Cannot read properties of undefined (reading 'split')"⟩ := by decide

/-- C4 amended: `validateFile` never throws for an absent file, and never
throws for a present file whose `name` field is a string; only a present
file without a `name` escapes as a thrown `TypeError`. -/
theorem validateFile_no_throw (maxSizeMB : ℚ) :
    (∃ r, validateFile none maxSizeMB = .ok r) ∧
    ∀ (f : JSFile) (n : String), f.name = some n →
      ∃ r, validateFile (some f) maxSizeMB = .ok r := by
  refine ⟨⟨_, rfl⟩, ?_⟩
  intro f n hn
  simp only [validateFile]
  rw [hn]
  exact ⟨_, rfl⟩

/-- C4 witness: a well-formed present file validates without a thrown
condition. -/
theorem validateFile_no_throw_witness :
    ∃ r, validateFile (some ⟨some 100, some "image/png", some "x.png"⟩) 5 = .ok r :=
  (validateFile_no_throw 5).2 ⟨some 100, some "image/png", some "x.png"⟩ "x.png" rfl

/-- C5 counterexample: not every unrecognized token takes the defaults.
`extensions['constructor']` and `mimeTypes['__proto__']` hit the prototype
chain of the object literals: the inherited `Object` constructor and
`Object.prototype` are truthy, so the `||` default never fires and the
source returns those objects instead of `"file"` /
`application/octet-stream`. -/
theorem formatLookup_inherited_counterexample :
    getFileExtension "constructor" = .inheritedObject "constructor" ∧
    getFileExtension "constructor" ≠ .str "file" ∧
    getMimeType "__proto__" = .inheritedObject "__proto__" ∧
    getMimeType "__proto__" ≠ .str "application/octet-stream" := by decide

/-- C5 amended: the format lookups are total and case-insensitive — two
tokens with the same lower-casing resolve identically; every recognized
token maps to the documented extension/MIME pairing; every token whose
lower-casing is outside both the table and the `Object.prototype` property
names maps to `"file"` and `application/octet-stream`; and a token whose
lower-casing names an `Object.prototype` member returns that inherited
truthy object instead of the default. -/
theorem formatLookup_total_case_insensitive :
    (∀ s t, jsToLower s = jsToLower t →
      getFileExtension s = getFileExtension t ∧ getMimeType s = getMimeType t) ∧
    (getFileExtension "jpeg" = .str "jpg" ∧
     getMimeType "jpeg" = .str "image/jpeg" ∧
     getFileExtension "jpg" = .str "jpg" ∧
     getMimeType "jpg" = .str "image/jpeg" ∧
     getFileExtension "png" = .str "png" ∧
     getMimeType "png" = .str "image/png" ∧
     getFileExtension "webp" = .str "webp" ∧
     getMimeType "webp" = .str "image/webp" ∧
     getFileExtension "gif" = .str "gif" ∧
     getMimeType "gif" = .str "image/gif" ∧
     getFileExtension "pdf" = .str "pdf" ∧
     getMimeType "pdf" = .str "application/pdf" ∧
     getFileExtension "txt" = .str "txt" ∧
     getMimeType "txt" = .str "text/plain" ∧
     getFileExtension "text" = .str "txt" ∧
     getMimeType "text" = .str "text/plain" ∧
     getFileExtension "json" = .str "json" ∧
     getMimeType "json" = .str "application/json" ∧
     getFileExtension "JPEG" = .str "jpg" ∧
     getMimeType "JPEG" = .str "image/jpeg") ∧
    (∀ s, jsToLower s ∉ recognizedTokens → jsToLower s ∉ objectProtoKeys →
      getFileExtension s = .str "file" ∧
      getMimeType s = .str "application/octet-stream") ∧
    (∀ s, jsToLower s ∈ objectProtoKeys →
      getFileExtension s = .inheritedObject (jsToLower s) ∧
      getMimeType s = .inheritedObject (jsToLower s)) := by
  refine ⟨?_, by decide, ?_, ?_⟩
  · intro s t h
    constructor
    · simp only [getFileExtension, h]
    · simp only [getMimeType, h]
  · intro s h hp
    exact ⟨getFileExtension_unknown s h hp, getMimeType_unknown s h hp⟩
  · intro s hp
    exact ⟨getFileExtension_inherited s hp, getMimeType_inherited s hp⟩

/-- C5 witness: mixed-case tokens resolve like their lower-casing, an
unrecognized ordinary token takes both defaults, and a mixed-case
`Object.prototype` name returns the inherited object. -/
theorem formatLookup_total_case_insensitive_witness :
    getFileExtension "PnG" = getFileExtension "png" ∧
    getFileExtension "bogus" = .str "file" ∧
    getMimeType "bogus" = .str "application/octet-stream" ∧
    getFileExtension "Constructor" = .inheritedObject "constructor" :=
  ⟨(formatLookup_total_case_insensitive.1 "PnG" "png" (by decide)).1,
   (formatLookup_total_case_insensitive.2.2.1 "bogus" (by decide) (by decide)).1,
   (formatLookup_total_case_insensitive.2.2.1 "bogus" (by decide) (by decide)).2,
   (formatLookup_total_case_insensitive.2.2.2 "Constructor" (by decide)).1⟩

/-- C6: when the first encoding attempt of `canvasToDataURL` throws, the
result is the single JPEG retry at the same quality exactly when the error's
name is `SecurityError` or its message includes `"supported"`; any other
error propagates, and a failing retry propagates as the retry's own result. -/
theorem canvasToDataURL_fallback (c : Canvas) (mimeType : String) (q : ℚ)
    (e : JSError)
    (h : (if mimeType == "image/png" then c.toDataURL mimeType none
          else c.toDataURL mimeType (some q)) = .error e) :
    canvasToDataURL c mimeType q =
      if e.name == "SecurityError" || jsIncludes e.message "supported" then
        c.toDataURL "image/jpeg" (some q)
      else .error e := by
  unfold canvasToDataURL
  rw [h]

/-- C6 witness: a tainted canvas whose every export throws `SecurityError`
takes the JPEG retry, whose own failure propagates. -/
theorem canvasToDataURL_fallback_witness :
    canvasToDataURL secCanvas "image/webp" 1 =
      if ("SecurityError" : String) == "SecurityError" ||
          jsIncludes "tainted canvas" "supported" then
        secCanvas.toDataURL "image/jpeg" (some 1)
      else .error ⟨"SecurityError", "tainted canvas"⟩ :=
  canvasToDataURL_fallback secCanvas "image/webp" 1
    ⟨"SecurityError", "tainted canvas"⟩ (by decide)

/-- C7: `getErrorSuggestion` lower-cases the message and matches in fixed
priority order — security, then format, then size, then the generic hint —
and the spec's example message matches the security hint first. -/
theorem getErrorSuggestion_priority :
    (∀ e : JSError,
      ((jsIncludes (jsToLower e.message) "security" ||
        jsIncludes (jsToLower e.message) "cross-origin") = true →
        getErrorSuggestion e = securityHint) ∧
      ((jsIncludes (jsToLower e.message) "security" ||
        jsIncludes (jsToLower e.message) "cross-origin") = false →
       (jsIncludes (jsToLower e.message) "supported" ||
        jsIncludes (jsToLower e.message) "format") = true →
        getErrorSuggestion e = formatHint) ∧
      ((jsIncludes (jsToLower e.message) "security" ||
        jsIncludes (jsToLower e.message) "cross-origin") = false →
       (jsIncludes (jsToLower e.message) "supported" ||
        jsIncludes (jsToLower e.message) "format") = false →
       (jsIncludes (jsToLower e.message) "size" ||
        jsIncludes (jsToLower e.message) "large") = true →
        getErrorSuggestion e = sizeHint) ∧
      ((jsIncludes (jsToLower e.message) "security" ||
        jsIncludes (jsToLower e.message) "cross-origin") = false →
       (jsIncludes (jsToLower e.message) "supported" ||
        jsIncludes (jsToLower e.message) "format") = false →
       (jsIncludes (jsToLower e.message) "size" ||
        jsIncludes (jsToLower e.message) "large") = false →
        getErrorSuggestion e = genericHint)) ∧
    getErrorSuggestion ⟨"SecurityError", "SecurityError: cross-origin"⟩ =
      securityHint := by
  refine ⟨fun e => ⟨?_, ?_, ?_, ?_⟩, by decide⟩ <;>
    · intros
      simp only [getErrorSuggestion]
      simp [*]

/-- C7 witness: a message matching only the third rule gets the size hint. -/
theorem getErrorSuggestion_priority_witness :
    getErrorSuggestion ⟨"RangeError", "File too large"⟩ = sizeHint :=
  (getErrorSuggestion_priority.1 ⟨"RangeError", "File too large"⟩).2.2.1
    (by decide) (by decide) (by decide)

/-- C8: an absent file short-circuits to the single error with no fileInfo;
a present (named) file accumulates the size violation and the missing/empty
type violation independently, `isValid` holds exactly when no error
accumulated, and fileInfo is populated. -/
theorem validateFile_accumulation :
    (∀ m : ℚ, validateFile none m = .ok ⟨false, ["No file selected"], none⟩) ∧
    ∀ (f : JSFile) (n : String) (m : ℚ), f.name = some n →
      ∃ r, validateFile (some f) m = .ok r ∧
        r.errors =
          (match f.size with
           | some s => if s > m * 1024 * 1024 then [sizeLimitError m] else []
           | none => []) ++
          (match f.type with
           | some t => if t == "" then [typeError] else []
           | none => [typeError]) ∧
        (r.isValid = true ↔ r.errors = []) ∧
        ¬ r.fileInfo = none := by
  refine ⟨fun m => rfl, ?_⟩
  intro f n m hn
  simp only [validateFile]
  rw [hn]
  refine ⟨_, rfl, rfl, ?_, by simp⟩
  simp [List.isEmpty_iff]

/-- C8 witness: the spec's 6MB file against a 5MB limit — invalid, size
error accumulated alongside a populated fileInfo. -/
theorem validateFile_accumulation_witness :
    ∃ r, validateFile (some ⟨some 6291456, some "image/png", some "x.png"⟩) 5 =
        .ok r ∧
      r.errors =
        (match (some (6291456 : ℚ)) with
         | some s => if s > 5 * 1024 * 1024 then [sizeLimitError 5] else []
         | none => []) ++
        (match (some "image/png") with
         | some t => if t == "" then [typeError] else []
         | none => [typeError]) ∧
      (r.isValid = true ↔ r.errors = []) ∧
      ¬ r.fileInfo = none :=
  validateFile_accumulation.2 ⟨some 6291456, some "image/png", some "x.png"⟩
    "x.png" 5 rfl

/-- C9 counterexample: PNG export does not ignore quality on every surface —
when the PNG attempt throws an unsupported-format error, the JPEG fallback
passes the quality to the encoder, so two quality values yield two different
encoded outputs. -/
theorem canvasToDataURL_png_quality_counterexample :
    canvasToDataURL pngFailCanvas "image/png" (mkRat 3 10) ≠
      canvasToDataURL pngFailCanvas "image/png" (mkRat 2 5) := by decide

/-- C9 amended: whenever the initial PNG encoding succeeds the quality
argument is ignored (the encoder is invoked without it), so the output is
identical for every pair of qualities; for every non-PNG MIME type the
quality is passed through to the encoder. -/
theorem canvasToDataURL_png_quality_amended :
    (∀ (c : Canvas) (q₁ q₂ : ℚ) (s : String),
      c.toDataURL "image/png" none = .ok s →
      canvasToDataURL c "image/png" q₁ = canvasToDataURL c "image/png" q₂) ∧
    (∀ (c : Canvas) (mimeType : String) (q : ℚ), ¬ mimeType = "image/png" →
      canvasToDataURL c mimeType q =
        match c.toDataURL mimeType (some q) with
        | .ok s => .ok s
        | .error e =>
            if e.name == "SecurityError" || jsIncludes e.message "supported" then
              c.toDataURL "image/jpeg" (some q)
            else .error e) := by
  constructor
  · intro c q₁ q₂ s hs
    unfold canvasToDataURL
    simp [hs]
  · intro c mimeType q h
    have hb : (mimeType == "image/png") = false := by simp [h]
    unfold canvasToDataURL
    rw [hb]
    simp

/-- C9 witness: on a surface whose PNG export succeeds, two different
qualities produce the identical output. -/
theorem canvasToDataURL_png_quality_amended_witness :
    canvasToDataURL probeCanvas "image/png" (mkRat 3 10) =
      canvasToDataURL probeCanvas "image/png" (mkRat 9 10) :=
  canvasToDataURL_png_quality_amended.1 probeCanvas (mkRat 3 10) (mkRat 9 10)
    ("image/png#-1") (by decide)

/-- C10: `cleanFilename` is a total function on strings (by construction in
this embedding) whose output never exceeds 50 characters. -/
theorem cleanFilename_length_le (s : String) :
    (cleanFilename s).length ≤ 50 := by
  have h : (cleanFilename s).length =
      (((stripExtension s.toList).map sanitizeChar).take 50).length := rfl
  rw [h, List.length_take]
  exact Nat.min_le_left _ _
